import Mathlib

/-!
# Verification of the gofrs-uuid generator engine (`generator.go`)

Shallow embedding of the UUID generator core: the clock-sequence tracker, the
monotonic batch counter, the per-version byte-layout encoders, and the cached
hardware-address resolution.  Go machine integers are modelled as `Nat` with
explicit `% 2^w` wrapping; Go `byte` buffers are `List Nat` whose entries are
kept below 256 at every boundary where bytes enter the system; fallible
operations return `Except`; the `io.Reader` random source and the `EpochFunc`
clock are modelled as injectable streams indexed by a read counter held in the
generator state, mirroring the `rand`/`epochFunc` fields of `Gen`.
-/

set_option maxRecDepth 40000

/-- A UUID is a fixed 16-byte value (each entry < 256). -/
abbrev UUID := List Nat

/-- Difference in 100-nanosecond intervals between the UUID epoch
(October 15, 1582) and the Unix epoch (January 1, 1970); `epochStart` in
`generator.go`. -/
def epochStart : Nat := 122192928000000000

/-- A point in time, as delivered by the injected `EpochFunc`; only the
nanosecond count since the Unix epoch is observable by the generator. -/
structure GoTime where
  unixNano : Nat
  deriving Repr, DecidableEq

/-- `time.Time.UnixMilli`: milliseconds since the Unix epoch. -/
def unixMilli (t : GoTime) : Nat := t.unixNano / 1000000

/-- `Gen.getEpoch`: 100-nanosecond intervals since the UUID epoch. -/
def getEpoch (atTime : GoTime) : Nat := epochStart + atTime.unixNano / 100

/-- Errors surfaced by the generator: a failed read from the random source
(`io.ReadFull` error), or `errors.New("batch size must be greater than zero")`. -/
inductive Err where
  | randSource
  | invalidBatchSize
  deriving Repr, DecidableEq

/-- The mutable state of `Gen` (`generator.go`): the injected random source and
epoch source (as streams with a position counter), the two `sync.Once` flags,
and the `lastTime`/`clockSequence`/`hardwareAddr` storage fields. -/
structure GenState where
  rand : Nat → Option (List Nat)
  randPos : Nat
  epoch : Nat → GoTime
  epochPos : Nat
  clockSeqSeeded : Bool
  hwSeeded : Bool
  lastTime : Nat
  clockSequence : Nat
  hardwareAddr : List Nat

/-- The state of `MonotonicGen`: the embedded `Gen` plus the `monotonicCounter`
field.  Note there is no separate timestamp field: `getMonotonicClockSequence`
reads and writes the embedded `Gen.lastTime`. -/
structure MonotonicGenState where
  gen : GenState
  monotonicCounter : Nat

/-- Normalize a raw draw from the random source to exactly `n` bytes, each
< 256 — `io.ReadFull` fills exactly `n` Go `byte`s on success. -/
def padTruncBytes (n : Nat) (bs : List Nat) : List Nat :=
  (bs.map (· % 256)).take n ++ List.replicate (n - bs.length) 0

/-- `io.ReadFull(g.rand, buf)` for a buffer of `n` bytes: consume one draw from
the random stream; `none` models a read error. -/
def readFull (n : Nat) (s : GenState) : Option (List Nat) × GenState :=
  match s.rand s.randPos with
  | none => (none, { s with randPos := s.randPos + 1 })
  | some bs => (some (padTruncBytes n bs), { s with randPos := s.randPos + 1 })

/-- `binary.BigEndian.Uint16` of a 2-byte buffer. -/
def beUint16 (b0 b1 : Nat) : Nat := b0 * 256 + b1

/-- `binary.BigEndian.PutUint16`: the two big-endian bytes of a `uint16`. -/
def putUint16 (x : Nat) : List Nat := [x / 256 % 256, x % 256]

/-- `binary.BigEndian.PutUint32`: the four big-endian bytes of a `uint32`. -/
def putUint32 (x : Nat) : List Nat :=
  [x / 16777216 % 256, x / 65536 % 256, x / 256 % 256, x % 256]

/-- Modelled from the spec: `UUID.SetVersion` lives in uuid.go, which is not
under src/.  Per the spec, every version "finish[es] by overwriting the version
nibble", bits 48–51 of the identifier, i.e. the high nibble of byte 6. -/
def setVersion (v : Nat) (u : UUID) : UUID :=
  u.set 6 (u.getD 6 0 % 16 + v % 16 * 16)

/-- Modelled from the spec: `UUID.SetVariant(VariantRFC9562)` lives in uuid.go,
which is not under src/.  Per the spec, "bits 64–65 (variant) encode the fixed
RFC-9562 pattern `10`": the top two bits of byte 8 become `10`. -/
def setVariantRFC9562 (u : UUID) : UUID :=
  u.set 8 (u.getD 8 0 % 64 + 128)

/-- `Gen.getClockSequence` (`generator.go`): one-time random seeding of the
16-bit clock sequence, then the stall-detection increment rule, returning the
computed timestamp and the (possibly incremented) sequence. -/
def getClockSequence (useUnixTSMs : Bool) (atTime : GoTime) (s : GenState) :
    Except Err (Nat × Nat) × GenState :=
  let (seedErr, s1) :=
    if s.clockSeqSeeded then ((none : Option Err), s)
    else
      match readFull 2 s with
      | (none, t) => (some Err.randSource, { t with clockSeqSeeded := true })
      | (some buf, t) =>
          (none, { t with clockSeqSeeded := true,
                          clockSequence := beUint16 (buf.getD 0 0) (buf.getD 1 0) })
  match seedErr with
  | some e => (Except.error e, s1)
  | none =>
      let timeNow := if useUnixTSMs then unixMilli atTime else getEpoch atTime
      let cs := if timeNow ≤ s1.lastTime then (s1.clockSequence + 1) % 65536
                else s1.clockSequence
      (Except.ok (timeNow, cs), { s1 with clockSequence := cs, lastTime := timeNow })

/-- `MonotonicGen.getMonotonicClockSequence` (`generator.go`): reset the counter
when the millisecond timestamp advances past the stored `lastTime`, increment it
(wrapping at 16 bits) otherwise; always store the new timestamp.  The Go
function returns a `nil` error unconditionally.  It reads and writes the
embedded `Gen`'s `lastTime` field. -/
def getMonotonicClockSequence (useUnixTSMs : Bool) (atTime : GoTime)
    (s : MonotonicGenState) : Except Err (Nat × Nat) × MonotonicGenState :=
  let timeNow := if useUnixTSMs then unixMilli atTime else getEpoch atTime
  let ctr := if timeNow ≤ s.gen.lastTime then (s.monotonicCounter + 1) % 65536 else 0
  (Except.ok (timeNow, ctr),
   { s with monotonicCounter := ctr, gen := { s.gen with lastTime := timeNow } })

/-- `Gen.getClockSequence` invoked on the `Gen` embedded in a `MonotonicGen`
(Go method promotion): the `MonotonicGen`-only field is untouched. -/
def getClockSequenceM (useUnixTSMs : Bool) (atTime : GoTime)
    (s : MonotonicGenState) : Except Err (Nat × Nat) × MonotonicGenState :=
  ((getClockSequence useUnixTSMs atTime s.gen).1,
   { s with gen := (getClockSequence useUnixTSMs atTime s.gen).2 })

/-- `hwAddr[0] |= 0x01`: set the multicast bit of the first byte of the random
fallback hardware address, as recommended by RFC-9562. -/
def setMulticastBit : List Nat → List Nat
  | [] => []
  | b :: rest => (b ||| 1) :: rest

/-- `copy(g.hardwareAddr[:], hwAddr)`: overwrite the first `min 6 (len new)`
bytes of the cached 6-byte array, keeping the rest. -/
def copyIntoAddr (old new : List Nat) : List Nat :=
  (new.map (· % 256)).take 6 ++ old.drop (min 6 new.length)

/-- `Gen.getHardwareAddr` (`generator.go`).  The injected `HWAddrFunc` is
modelled as `Option (List Nat)`: `some addr` for a successful resolution,
`none` when no interface is found or the source errors.  Resolution happens at
most once (`hardwareAddrOnce`); on source failure 6 random bytes are drawn and
the multicast bit is set; afterwards the cached value is always returned. -/
def getHardwareAddr (hwf : Option (List Nat)) (s : GenState) :
    Except Err (List Nat) × GenState :=
  if s.hwSeeded then (Except.ok s.hardwareAddr, s)
  else
    match hwf with
    | some addr =>
        let a := copyIntoAddr s.hardwareAddr addr
        (Except.ok a, { s with hwSeeded := true, hardwareAddr := a })
    | none =>
        match readFull 6 s with
        | (none, t) => (Except.error Err.randSource, { t with hwSeeded := true })
        | (some bs, t) =>
            let a := setMulticastBit bs
            (Except.ok a, { t with hwSeeded := true, hardwareAddr := a })

/-- `Gen.NewV4` (`generator.go`): 16 fresh random bytes with version nibble 4
and the RFC-9562 variant overwritten. -/
def NewV4 (s : GenState) : Except Err UUID × GenState :=
  match readFull 16 s with
  | (none, t) => (Except.error Err.randSource, t)
  | (some bs, t) => (Except.ok (setVariantRFC9562 (setVersion 4 bs)), t)

/-- `Gen.NewV6AtTime` (`generator.go`): time_high/time_mid/time_low from the
100ns-epoch timestamp, then 8 fresh random bytes, then version and variant
overwritten.  The clock sequence returned by the tracker is discarded. -/
def NewV6AtTime (atTime : GoTime) (s : GenState) : Except Err UUID × GenState :=
  match getClockSequence false atTime s with
  | (Except.error e, s1) => (Except.error e, s1)
  | (Except.ok (timeNow, _), s1) =>
      let u0 : UUID :=
        putUint32 (timeNow / 268435456 % 4294967296) ++
        putUint16 (timeNow / 4096 % 65536) ++
        putUint16 (timeNow % 4096) ++ List.replicate 8 0
      match readFull 8 s1 with
      | (none, s2) => (Except.error Err.randSource, s2)
      | (some rb, s2) =>
          (Except.ok (setVariantRFC9562 (setVersion 6 (u0.take 8 ++ rb))), s2)

/-- `MonotonicGen.newMonotonicV7` (`generator.go`): one v7 identifier whose
rand_a field carries the monotonic counter; consumes one tick of the epoch
stream (`g.epochFunc()`) and one 8-byte random draw. -/
def newMonotonicV7 (s : MonotonicGenState) : Except Err UUID × MonotonicGenState :=
  let t := s.gen.epoch s.gen.epochPos
  let s0 : MonotonicGenState :=
    { s with gen := { s.gen with epochPos := s.gen.epochPos + 1 } }
  match getMonotonicClockSequence true t s0 with
  | (Except.error e, s1) => (Except.error e, s1)
  | (Except.ok (ms, clockSeq), s1) =>
      let u0 : UUID :=
        [ms / 1099511627776 % 256, ms / 4294967296 % 256, ms / 16777216 % 256,
         ms / 65536 % 256, ms / 256 % 256, ms % 256] ++
        putUint16 (clockSeq % 65536) ++ List.replicate 8 0
      let u1 := setVersion 7 u0
      match readFull 8 s1.gen with
      | (none, g2) => (Except.error Err.randSource, { s1 with gen := g2 })
      | (some rb, g2) =>
          (Except.ok (setVariantRFC9562 (u1.take 8 ++ rb)), { s1 with gen := g2 })

/-- The loop body of `MonotonicGen.GenerateBatchV7`: generate `k` identifiers in
order, aborting (and returning no identifiers) on the first error. -/
def generateBatchLoop (k : Nat) (s : MonotonicGenState) :
    Except Err (List UUID) × MonotonicGenState :=
  match k with
  | 0 => (Except.ok [], s)
  | Nat.succ k' =>
      match newMonotonicV7 s with
      | (Except.error e, s1) => (Except.error e, s1)
      | (Except.ok u, s1) =>
          match generateBatchLoop k' s1 with
          | (Except.ok us, s2) => (Except.ok (u :: us), s2)
          | (Except.error e, s2) => (Except.error e, s2)

/-- `MonotonicGen.GenerateBatchV7` (`generator.go`): reject non-positive batch
sizes, otherwise generate `batchSize` monotonic v7 identifiers. -/
def GenerateBatchV7 (batchSize : Int) (s : MonotonicGenState) :
    Except Err (List UUID) × MonotonicGenState :=
  if batchSize ≤ 0 then (Except.error Err.invalidBatchSize, s)
  else generateBatchLoop batchSize.toNat s

/-- Strict byte-lexicographic order on byte sequences. -/
def lexLtB : List Nat → List Nat → Bool
  | [], [] => false
  | [], _ :: _ => true
  | _ :: _, [] => false
  | a :: as, b :: bs => a < b || (a == b && lexLtB as bs)

/-- The six big-endian bytes of the 48-bit millisecond timestamp, as laid out
in bytes 0–5 of a v7 identifier. -/
def msBytes (ms : Nat) : List Nat :=
  [ms / 1099511627776 % 256, ms / 4294967296 % 256, ms / 16777216 % 256,
   ms / 65536 % 256, ms / 256 % 256, ms % 256]

/-- Bytes 6–7 of a monotonic v7 identifier carrying counter value `c < 2^16`:
the version nibble 7 overwrites the counter's top 4 bits. -/
def ctrBytes (c : Nat) : List Nat := [c / 256 % 16 + 112, c % 256]

/-- The timestamp computed by the trackers: millisecond Unix epoch when
`useUnixTSMs`, otherwise the 100ns count since the UUID epoch. -/
def clockTimestamp (useUnixTSMs : Bool) (atTime : GoTime) : Nat :=
  if useUnixTSMs then unixMilli atTime else getEpoch atTime

/-- Truncation to 32 bits (`uint32` arithmetic). -/
def m32 (x : Nat) : Nat := x % 4294967296

/-- 32-bit left rotation (for values < 2^32). -/
def rotl32 (x n : Nat) : Nat := x * 2 ^ n % 4294967296 + x / 2 ^ (32 - n)

/-- MD5 round function F. -/
def md5F (b c d : Nat) : Nat := (b &&& c) ||| ((4294967295 - b) &&& d)

/-- MD5 round function G. -/
def md5G (b c d : Nat) : Nat := (d &&& b) ||| ((4294967295 - d) &&& c)

/-- MD5 round function H. -/
def md5H (b c d : Nat) : Nat := b ^^^ c ^^^ d

/-- MD5 round function I. -/
def md5I (b c d : Nat) : Nat := c ^^^ (b ||| (4294967295 - d))

/-- The MD5 sine-derived constant table `K[i] = ⌊2^32·|sin(i+1)|⌋`. -/
def md5K : List Nat :=
  [3614090360, 3905402710, 606105819, 3250441966, 4118548399, 1200080426,
   2821735955, 4249261313, 1770035416, 2336552879, 4294925233, 2304563134,
   1804603682, 4254626195, 2792965006, 1236535329, 4129170786, 3225465664,
   643717713, 3921069994, 3593408605, 38016083, 3634488961, 3889429448,
   568446438, 3275163606, 4107603335, 1163531501, 2850285829, 4243563512,
   1735328473, 2368359562, 4294588738, 2272392833, 1839030562, 4259657740,
   2763975236, 1272893353, 4139469664, 3200236656, 681279174, 3936430074,
   3572445317, 76029189, 3654602809, 3873151461, 530742520, 3299628645,
   4096336452, 1126891415, 2878612391, 4237533241, 1700485571, 2399980690,
   4293915773, 2240044497, 1873313359, 4264355552, 2734768916, 1309151649,
   4149444226, 3174756917, 718787259, 3951481745]

/-- The MD5 per-round left-rotation amounts. -/
def md5S : List Nat :=
  [7, 12, 17, 22, 7, 12, 17, 22, 7, 12, 17, 22, 7, 12, 17, 22,
   5, 9, 14, 20, 5, 9, 14, 20, 5, 9, 14, 20, 5, 9, 14, 20,
   4, 11, 16, 23, 4, 11, 16, 23, 4, 11, 16, 23, 4, 11, 16, 23,
   6, 10, 15, 21, 6, 10, 15, 21, 6, 10, 15, 21, 6, 10, 15, 21]

/-- Little-endian 32-bit word `i` of a 64-byte block. -/
def leWord (b : List Nat) (i : Nat) : Nat :=
  b.getD (4 * i) 0 + 256 * b.getD (4 * i + 1) 0 + 65536 * b.getD (4 * i + 2) 0 +
    16777216 * b.getD (4 * i + 3) 0

/-- Big-endian 32-bit word `i` of a 64-byte block. -/
def beWord (b : List Nat) (i : Nat) : Nat :=
  16777216 * b.getD (4 * i) 0 + 65536 * b.getD (4 * i + 1) 0 +
    256 * b.getD (4 * i + 2) 0 + b.getD (4 * i + 3) 0

/-- The four little-endian bytes of a 32-bit word. -/
def wordLE (w : Nat) : List Nat := [w % 256, w / 256 % 256, w / 65536 % 256, w / 16777216 % 256]

/-- The four big-endian bytes of a 32-bit word. -/
def wordBE (w : Nat) : List Nat := [w / 16777216 % 256, w / 65536 % 256, w / 256 % 256, w % 256]

/-- One MD5 round: `i` is the round index, `M` the message-word accessor. -/
def md5Step (M : Nat → Nat) (st : Nat × Nat × Nat × Nat) (i : Nat) : Nat × Nat × Nat × Nat :=
  let f := if i < 16 then md5F st.2.1 st.2.2.1 st.2.2.2
           else if i < 32 then md5G st.2.1 st.2.2.1 st.2.2.2
           else if i < 48 then md5H st.2.1 st.2.2.1 st.2.2.2
           else md5I st.2.1 st.2.2.1 st.2.2.2
  let g := if i < 16 then i else if i < 32 then (5 * i + 1) % 16
           else if i < 48 then (3 * i + 5) % 16 else 7 * i % 16
  let tmp := m32 (st.1 + f + md5K.getD i 0 + M g)
  (st.2.2.2, m32 (st.2.1 + rotl32 tmp (md5S.getD i 0)), st.2.1, st.2.2.1)

/-- MD5 compression of one 64-byte block. -/
def md5Block (st : Nat × Nat × Nat × Nat) (block : List Nat) : Nat × Nat × Nat × Nat :=
  let e := (List.range 64).foldl (md5Step (leWord block)) st
  (m32 (st.1 + e.1), m32 (st.2.1 + e.2.1), m32 (st.2.2.1 + e.2.2.1), m32 (st.2.2.2 + e.2.2.2))

/-- The eight little-endian bytes of the 64-bit message bit length. -/
def lenBytesLE (len : Nat) : List Nat :=
  [8 * len % 256, 8 * len / 256 % 256, 8 * len / 65536 % 256, 8 * len / 16777216 % 256,
   8 * len / 4294967296 % 256, 8 * len / 1099511627776 % 256,
   8 * len / 281474976710656 % 256, 8 * len / 72057594037927936 % 256]

/-- The eight big-endian bytes of the 64-bit message bit length. -/
def lenBytesBE (len : Nat) : List Nat :=
  [8 * len / 72057594037927936 % 256, 8 * len / 281474976710656 % 256,
   8 * len / 1099511627776 % 256, 8 * len / 4294967296 % 256,
   8 * len / 16777216 % 256, 8 * len / 65536 % 256, 8 * len / 256 % 256, 8 * len % 256]

/-- Merkle–Damgård padding: `0x80`, zeros to 56 mod 64, then the bit length. -/
def mdPad (lenBytes : Nat → List Nat) (msg : List Nat) : List Nat :=
  msg ++ [128] ++ List.replicate ((119 - msg.length % 64) % 64) 0 ++ lenBytes msg.length

/-- Split a list into chunks of `n` bytes (with enough fuel). -/
def chunksGo (fuel n : Nat) (l : List Nat) : List (List Nat) :=
  match fuel with
  | 0 => []
  | fuel' + 1 => if l.length = 0 then [] else l.take n :: chunksGo fuel' n (l.drop n)

/-- MD5 of a byte sequence (the model of Go's `crypto/md5`). -/
def md5Bytes (msg : List Nat) : List Nat :=
  let blocks := chunksGo (msg.length + 9) 64 (mdPad lenBytesLE msg)
  let fin := blocks.foldl md5Block (1732584193, 4023233417, 2562383102, 271733878)
  wordLE fin.1 ++ wordLE fin.2.1 ++ wordLE fin.2.2.1 ++ wordLE fin.2.2.2

/-- SHA-1 round constants. -/
def sha1K (t : Nat) : Nat :=
  if t < 20 then 1518500249 else if t < 40 then 1859775393
  else if t < 60 then 2400959708 else 3395469782

/-- SHA-1 round functions. -/
def sha1F (t b c d : Nat) : Nat :=
  if t < 20 then (b &&& c) ||| ((4294967295 - b) &&& d)
  else if t < 40 then b ^^^ c ^^^ d
  else if t < 60 then (b &&& c) ||| (b &&& d) ||| (c &&& d)
  else b ^^^ c ^^^ d

/-- Extend the (reversed) SHA-1 message schedule by one word. -/
def sha1ExtendRev (ws : List Nat) : List Nat :=
  rotl32 (ws.getD 2 0 ^^^ ws.getD 7 0 ^^^ ws.getD 13 0 ^^^ ws.getD 15 0) 1 :: ws

/-- The 80-word SHA-1 message schedule of one block. -/
def sha1Schedule (block : List Nat) : List Nat :=
  (((List.range 64).foldl (fun ws _ => sha1ExtendRev ws)
      ((List.range 16).map (fun i => beWord block (15 - i)))).reverse)

/-- One SHA-1 round. -/
def sha1Round (W : Nat → Nat) (st : Nat × Nat × Nat × Nat × Nat) (t : Nat) :
    Nat × Nat × Nat × Nat × Nat :=
  let tmp := m32 (rotl32 st.1 5 + sha1F t st.2.1 st.2.2.1 st.2.2.2.1 + st.2.2.2.2 +
    sha1K t + W t)
  (tmp, st.1, rotl32 st.2.1 30, st.2.2.1, st.2.2.2.1)

/-- SHA-1 compression of one 64-byte block. -/
def sha1Block (st : Nat × Nat × Nat × Nat × Nat) (block : List Nat) :
    Nat × Nat × Nat × Nat × Nat :=
  let ws := sha1Schedule block
  let e := (List.range 80).foldl (sha1Round (fun t => ws.getD t 0)) st
  (m32 (st.1 + e.1), m32 (st.2.1 + e.2.1), m32 (st.2.2.1 + e.2.2.1),
   m32 (st.2.2.2.1 + e.2.2.2.1), m32 (st.2.2.2.2 + e.2.2.2.2))

/-- SHA-1 of a byte sequence (the model of Go's `crypto/sha1`). -/
def sha1Bytes (msg : List Nat) : List Nat :=
  let blocks := chunksGo (msg.length + 9) 64 (mdPad lenBytesBE msg)
  let fin := blocks.foldl sha1Block
    (1732584193, 4023233417, 2562383102, 271733878, 3285377520)
  wordBE fin.1 ++ wordBE fin.2.1 ++ wordBE fin.2.2.1 ++ wordBE fin.2.2.2.1 ++
    wordBE fin.2.2.2.2

/-- `newFromHash` (`generator.go`): hash the namespace followed by the name and
copy the first 16 digest bytes into a zeroed identifier. -/
def newFromHash (h : List Nat → List Nat) (ns : UUID) (name : List Nat) : UUID :=
  let digest := h (ns ++ name)
  digest.take 16 ++ List.replicate (16 - digest.length) 0

/-- `Gen.NewV3` (`generator.go`): MD5 of namespace‖name with version 3 and the
RFC-9562 variant overwritten.  The generator state is not consulted. -/
def NewV3 (_g : GenState) (ns : UUID) (name : List Nat) : UUID :=
  setVariantRFC9562 (setVersion 3 (newFromHash md5Bytes ns name))

/-- `Gen.NewV5` (`generator.go`): SHA-1 of namespace‖name with version 5 and the
RFC-9562 variant overwritten.  The generator state is not consulted. -/
def NewV5 (_g : GenState) (ns : UUID) (name : List Nat) : UUID :=
  setVariantRFC9562 (setVersion 5 (newFromHash sha1Bytes ns name))

/-- `NewGenWithOptions` (`generator.go`) with injected random and epoch sources:
all storage fields start at their Go zero values. -/
def newGenState (rand : Nat → Option (List Nat)) (epoch : Nat → GoTime) : GenState :=
  { rand := rand, randPos := 0, epoch := epoch, epochPos := 0,
    clockSeqSeeded := false, hwSeeded := false, lastTime := 0, clockSequence := 0,
    hardwareAddr := List.replicate 6 0 }

/-- `NewMonotonicGen` (`generator.go`) with injected sources. -/
def newMonotonicGenState (rand : Nat → Option (List Nat)) (epoch : Nat → GoTime) :
    MonotonicGenState :=
  { gen := newGenState rand epoch, monotonicCounter := 0 }

/-- A fresh monotonic generator whose clock always reports millisecond 1 and
whose random source always succeeds with eight zero bytes. -/
def mg1 : MonotonicGenState :=
  newMonotonicGenState (fun _ => some (List.replicate 8 0)) (fun _ => ⟨1000000⟩)

/-- Concrete state for the C2 counterexample: a fresh monotonic generator with
stubbed sources (`lastTime` starts at its Go zero value 0). -/
def mg2 : MonotonicGenState :=
  newMonotonicGenState (fun _ => some (List.replicate 8 0)) (fun _ => ⟨5000000⟩)

/-- Concrete seeded generator used to exercise the clock-sequence tracker. -/
def g3 : GenState :=
  { newGenState (fun _ => some [0, 7]) (fun _ => ⟨0⟩) with
      clockSeqSeeded := true, clockSequence := 7, lastTime := 500 }

/-- Concrete monotonic generator state exercised by the C4 witness. -/
def mg4 : MonotonicGenState :=
  { gen := { newGenState (fun _ => some []) (fun _ => ⟨0⟩) with lastTime := 3 },
    monotonicCounter := 9 }

/-- Concrete fresh generator whose random source yields `[2,3,4,5,6,7]`. -/
def g5 : GenState := newGenState (fun _ => some [2, 3, 4, 5, 6, 7]) (fun _ => ⟨0⟩)

/-- Concrete seeded generator whose random source yields eight zero bytes. -/
def g6 : GenState :=
  { newGenState (fun _ => some (List.replicate 8 0)) (fun _ => ⟨0⟩) with
      clockSeqSeeded := true }

/-- Concrete monotonic generator used by the C7 witness. -/
def mg7 : MonotonicGenState :=
  newMonotonicGenState (fun _ => some (List.replicate 8 0)) (fun _ => ⟨0⟩)

/-- Concrete generator handed to the state-independent hash-based versions. -/
def g8 : GenState := newGenState (fun _ => none) (fun _ => ⟨0⟩)

/-- The all-zero namespace identifier. -/
def nsZero : UUID := List.replicate 16 0

/-- Concrete generator whose random source always returns 16 zero bytes. -/
def g9 : GenState := newGenState (fun _ => some (List.replicate 16 0)) (fun _ => ⟨0⟩)

/-- Concrete fresh generator whose random source always fails. -/
def g10 : GenState := newGenState (fun _ => none) (fun _ => ⟨0⟩)

/-- Encode a byte list as a function from positions to bytes; on well-formed
16-byte identifiers this encoding is injective. -/
def encUuid (l : List Nat) : Fin 16 → Fin 256 :=
  fun i => ⟨l.getD i 0 % 256, by omega⟩

/-! ## Helper lemmas -/

theorem padTruncBytes_length (n : Nat) (bs : List Nat) :
    (padTruncBytes n bs).length = n := by
  simp [padTruncBytes]
  omega

theorem padTruncBytes_lt (n : Nat) (bs : List Nat) :
    ∀ b ∈ padTruncBytes n bs, b < 256 := by
  intro b hb
  simp only [padTruncBytes, List.mem_append] at hb
  rcases hb with hb | hb
  · obtain ⟨x, -, rfl⟩ := List.mem_map.mp (List.mem_of_mem_take hb)
    omega
  · simp [List.eq_of_mem_replicate hb]

/-! ## C3: the clock-sequence update rule -/

/-- C3: for every successful call to `getClockSequence` on a seeded tracker,
the returned pair is the computed timestamp and the stored sequence; if the
timestamp is ≤ the stored `lastTime` the 16-bit sequence is incremented by
exactly one (mod 2^16), otherwise it is unchanged; `lastTime` is always set to
the computed timestamp; consequently a second call at the same instant returns
a sequence exactly one greater (mod 2^16). -/
theorem C3_clock_sequence_update (flag : Bool) (t : GoTime) (s : GenState)
    (hseed : s.clockSeqSeeded = true) :
    (getClockSequence flag t s).1 =
      Except.ok (clockTimestamp flag t, ((getClockSequence flag t s).2).clockSequence) ∧
    ((getClockSequence flag t s).2).lastTime = clockTimestamp flag t ∧
    (clockTimestamp flag t ≤ s.lastTime →
      ((getClockSequence flag t s).2).clockSequence = (s.clockSequence + 1) % 65536) ∧
    (s.lastTime < clockTimestamp flag t →
      ((getClockSequence flag t s).2).clockSequence = s.clockSequence) ∧
    (getClockSequence flag t ((getClockSequence flag t s).2)).1 =
      Except.ok (clockTimestamp flag t,
        (((getClockSequence flag t s).2).clockSequence + 1) % 65536) := by
  by_cases hle : clockTimestamp flag t ≤ s.lastTime <;>
    simp_all [getClockSequence, clockTimestamp, hseed, hle, Nat.not_le]

/-- Witness for C3 at the concrete seeded generator `g3` with a stalled clock
(timestamp 0, stored `lastTime` 500). -/
theorem C3_clock_sequence_update_witness :
    g3.clockSeqSeeded = true ∧
    ((getClockSequence true ⟨0⟩ g3).1 =
      Except.ok (clockTimestamp true ⟨0⟩, ((getClockSequence true ⟨0⟩ g3).2).clockSequence) ∧
    ((getClockSequence true ⟨0⟩ g3).2).lastTime = clockTimestamp true ⟨0⟩ ∧
    (clockTimestamp true ⟨0⟩ ≤ g3.lastTime →
      ((getClockSequence true ⟨0⟩ g3).2).clockSequence = (g3.clockSequence + 1) % 65536) ∧
    (g3.lastTime < clockTimestamp true ⟨0⟩ →
      ((getClockSequence true ⟨0⟩ g3).2).clockSequence = g3.clockSequence) ∧
    (getClockSequence true ⟨0⟩ ((getClockSequence true ⟨0⟩ g3).2)).1 =
      Except.ok (clockTimestamp true ⟨0⟩,
        (((getClockSequence true ⟨0⟩ g3).2).clockSequence + 1) % 65536)) :=
  ⟨rfl, C3_clock_sequence_update true ⟨0⟩ g3 rfl⟩

/-! ## C4: the monotonic-counter update rule -/

/-- C4: `getMonotonicClockSequence` always succeeds (it never reads the random
source: the random stream position is untouched); the counter resets to 0 when
the computed timestamp is strictly greater than the stored `lastTime`,
increments by one mod 2^16 otherwise, and `lastTime` is unconditionally set to
the computed timestamp. -/
theorem C4_monotonic_counter_update (flag : Bool) (t : GoTime) (s : MonotonicGenState) :
    (getMonotonicClockSequence flag t s).1 =
      Except.ok (clockTimestamp flag t,
        ((getMonotonicClockSequence flag t s).2).monotonicCounter) ∧
    ((getMonotonicClockSequence flag t s).2).monotonicCounter =
      (if s.gen.lastTime < clockTimestamp flag t then 0
       else (s.monotonicCounter + 1) % 65536) ∧
    ((getMonotonicClockSequence flag t s).2).gen.lastTime = clockTimestamp flag t ∧
    ((getMonotonicClockSequence flag t s).2).gen.randPos = s.gen.randPos ∧
    ((getMonotonicClockSequence flag t s).2).gen.rand = s.gen.rand := by
  by_cases hle : clockTimestamp flag t ≤ s.gen.lastTime
  · simp_all [getMonotonicClockSequence, clockTimestamp]
    rw [if_neg (Nat.not_lt.mpr hle)]
  · simp_all [getMonotonicClockSequence, clockTimestamp, Nat.not_le]

/-! ## C7: batch-size validation -/

/-- C7: for every `count ≤ 0`, `GenerateBatchV7` fails immediately with the
invalid-batch-size error, returns no identifiers, and leaves the generator
state (in particular the monotonic counter) untouched. -/
theorem C7_batch_size_validation (s : MonotonicGenState) (count : Int)
    (h : count ≤ 0) :
    GenerateBatchV7 count s = (Except.error Err.invalidBatchSize, s) := by
  simp [GenerateBatchV7, h]

/-- Witness for C7 at counts 0 and -5 on the concrete generator `mg7`. -/
theorem C7_batch_size_validation_witness :
    (0 : Int) ≤ 0 ∧ (-5 : Int) ≤ 0 ∧
    GenerateBatchV7 0 mg7 = (Except.error Err.invalidBatchSize, mg7) ∧
    GenerateBatchV7 (-5) mg7 = (Except.error Err.invalidBatchSize, mg7) :=
  ⟨by decide, by decide, C7_batch_size_validation mg7 0 (by decide),
   C7_batch_size_validation mg7 (-5) (by decide)⟩

/-! ## C9: v4 with an all-zero random source -/

/-- C9: when the random source always returns all-zero bytes, `NewV4` succeeds
and returns exactly `00000000-0000-4000-8000-000000000000`: all bytes zero
except byte 6 = `0x40` (version nibble 4) and byte 8 = `0x80` (variant `10`). -/
theorem C9_v4_all_zero_random (s : GenState)
    (h : s.rand = fun _ => some (List.replicate 16 0)) :
    (NewV4 s).1 =
      Except.ok [0, 0, 0, 0, 0, 0, 64, 0, 128, 0, 0, 0, 0, 0, 0, 0] := by
  simp [NewV4, readFull, h, padTruncBytes, setVersion, setVariantRFC9562,
    List.replicate, List.set, List.getD]

/-- Witness for C9 at the concrete generator `g9`. -/
theorem C9_v4_all_zero_random_witness :
    g9.rand = (fun _ => some (List.replicate 16 0)) ∧
    (NewV4 g9).1 =
      Except.ok [0, 0, 0, 0, 0, 0, 64, 0, 128, 0, 0, 0, 0, 0, 0, 0] :=
  ⟨rfl, C9_v4_all_zero_random g9 rfl⟩

/-! ## C2: (non-)separation of the monotonic state -/

theorem setMulticastBit_length (l : List Nat) :
    (setMulticastBit l).length = l.length := by
  cases l <;> simp [setMulticastBit]

theorem lor_one_mod_two (x : Nat) : (x ||| 1) % 2 = 1 := by
  simp

/-- C2 (amended): the monotonic counter does have its own counter field and the
tracker calls never touch each other's counters — a batch-side call leaves
`clockSequence` (and the seeding flags, cached address and random position)
unchanged, and a tracker-side call leaves `monotonicCounter` unchanged — but
the `lastTimestamp` state is NOT independent: both calls write the computed
timestamp into the single shared `lastTime` field of the embedded `Gen`. -/
theorem C2_state_separation (flag : Bool) (t : GoTime) (s : MonotonicGenState) :
    ((getMonotonicClockSequence flag t s).2).gen.clockSequence = s.gen.clockSequence ∧
    ((getMonotonicClockSequence flag t s).2).gen.hardwareAddr = s.gen.hardwareAddr ∧
    ((getMonotonicClockSequence flag t s).2).gen.clockSeqSeeded = s.gen.clockSeqSeeded ∧
    ((getMonotonicClockSequence flag t s).2).gen.hwSeeded = s.gen.hwSeeded ∧
    ((getMonotonicClockSequence flag t s).2).gen.randPos = s.gen.randPos ∧
    ((getMonotonicClockSequence flag t s).2).gen.lastTime = clockTimestamp flag t ∧
    ((getClockSequenceM flag t s).2).monotonicCounter = s.monotonicCounter ∧
    (s.gen.clockSeqSeeded = true →
      ((getClockSequenceM flag t s).2).gen.lastTime = clockTimestamp flag t) := by
  refine ⟨?_, ?_, ?_, ?_, ?_, ?_, ?_, ?_⟩ <;>
    try simp [getMonotonicClockSequence, getClockSequenceM, clockTimestamp]
  intro hseed
  by_cases hle : clockTimestamp flag t ≤ s.gen.lastTime <;>
    simp_all [getClockSequence, clockTimestamp, hseed, hle]

/-- Witness for C2's amended theorem at a concrete instance. -/
theorem C2_state_separation_witness :
    mg2.gen.clockSeqSeeded = false ∧
    (((getMonotonicClockSequence true ⟨5000000⟩ mg2).2).gen.clockSequence =
        mg2.gen.clockSequence ∧
      ((getMonotonicClockSequence true ⟨5000000⟩ mg2).2).gen.hardwareAddr =
        mg2.gen.hardwareAddr ∧
      ((getMonotonicClockSequence true ⟨5000000⟩ mg2).2).gen.clockSeqSeeded =
        mg2.gen.clockSeqSeeded ∧
      ((getMonotonicClockSequence true ⟨5000000⟩ mg2).2).gen.hwSeeded =
        mg2.gen.hwSeeded ∧
      ((getMonotonicClockSequence true ⟨5000000⟩ mg2).2).gen.randPos =
        mg2.gen.randPos ∧
      ((getMonotonicClockSequence true ⟨5000000⟩ mg2).2).gen.lastTime =
        clockTimestamp true ⟨5000000⟩ ∧
      ((getClockSequenceM true ⟨5000000⟩ mg2).2).monotonicCounter =
        mg2.monotonicCounter ∧
      (mg2.gen.clockSeqSeeded = true →
        ((getClockSequenceM true ⟨5000000⟩ mg2).2).gen.lastTime =
          clockTimestamp true ⟨5000000⟩)) :=
  ⟨rfl, C2_state_separation true ⟨5000000⟩ mg2⟩

/-- C2 counterexample: the claim that a batch-issuance call leaves the
`lastTime` field used by `NewV1`/`NewV6`/`NewV7` unchanged is false: on the
fresh generator `mg2` (stored `lastTime` 0), one `getMonotonicClockSequence`
call at millisecond 5 overwrites the shared `lastTime` with 5. -/
theorem C2_counterexample :
    mg2.gen.lastTime = 0 ∧
    ((getMonotonicClockSequence true ⟨5000000⟩ mg2).2).gen.lastTime = 5 :=
  ⟨rfl, rfl⟩

/-! ## C5: hardware-address fallback and caching -/

/-- C5: on the first resolution, if the hardware-address source fails, six
random bytes are drawn, the least-significant bit of byte 0 is set, and that
6-byte value is cached; every subsequent resolution — whatever the
hardware-address source would now return — succeeds with the cached value and
leaves the state unchanged. -/
theorem C5_hw_fallback (s : GenState) (bs : List Nat)
    (h1 : s.hwSeeded = false) (h2 : s.rand s.randPos = some bs) :
    ∃ a s2, getHardwareAddr none s = (Except.ok a, s2) ∧
      a = setMulticastBit (padTruncBytes 6 bs) ∧
      a.length = 6 ∧ a.getD 0 0 % 2 = 1 ∧
      s2.hwSeeded = true ∧ s2.hardwareAddr = a ∧
      ∀ hwf2, getHardwareAddr hwf2 s2 = (Except.ok a, s2) := by
  refine ⟨setMulticastBit (padTruncBytes 6 bs),
    { s with randPos := s.randPos + 1, hwSeeded := true,
             hardwareAddr := setMulticastBit (padTruncBytes 6 bs) },
    ?_, rfl, ?_, ?_, rfl, rfl, ?_⟩
  · simp [getHardwareAddr, readFull, h1, h2]
  · rw [setMulticastBit_length, padTruncBytes_length]
  · have h6 : (padTruncBytes 6 bs).length = 6 := padTruncBytes_length 6 bs
    rcases hp : padTruncBytes 6 bs with - | ⟨b, rest⟩
    · rw [hp] at h6; simp at h6
    · simp [setMulticastBit, lor_one_mod_two]
  · intro hwf2
    simp [getHardwareAddr]

/-- Witness for C5 at the concrete fresh generator `g5`, whose random source
yields `[2,3,4,5,6,7]`. -/
theorem C5_hw_fallback_witness :
    g5.hwSeeded = false ∧ g5.rand g5.randPos = some [2, 3, 4, 5, 6, 7] ∧
    (∃ a s2, getHardwareAddr none g5 = (Except.ok a, s2) ∧
      a = setMulticastBit (padTruncBytes 6 [2, 3, 4, 5, 6, 7]) ∧
      a.length = 6 ∧ a.getD 0 0 % 2 = 1 ∧
      s2.hwSeeded = true ∧ s2.hardwareAddr = a ∧
      ∀ hwf2, getHardwareAddr hwf2 s2 = (Except.ok a, s2)) :=
  ⟨rfl, rfl, C5_hw_fallback g5 [2, 3, 4, 5, 6, 7] rfl rfl⟩

/-! ## C10: a failed one-time initialization is never retried -/

/-- C10: if the random read inside the first `getClockSequence` call fails, the
call errors but the once-flag is consumed: every later call succeeds, using the
unseeded `clockSequence` value 0 (so a stalled clock yields sequence 1, an
advanced clock sequence 0); analogously a failed random fallback in
`getHardwareAddr` errors once, consumes the once-flag, and every later call
succeeds with the cached (never random-initialized) address. -/
theorem C10_failed_init_not_retried (s : GenState) (flag flag2 : Bool)
    (t t2 : GoTime)
    (h0 : s.clockSequence = 0) (h1 : s.clockSeqSeeded = false)
    (h3 : s.hwSeeded = false) (h2 : s.rand s.randPos = none) :
    (getClockSequence flag t s).1 = Except.error Err.randSource ∧
    ((getClockSequence flag t s).2).clockSeqSeeded = true ∧
    ((getClockSequence flag t s).2).clockSequence = 0 ∧
    ((getClockSequence flag t s).2).lastTime = s.lastTime ∧
    (getClockSequence flag2 t2 ((getClockSequence flag t s).2)).1 =
      Except.ok (clockTimestamp flag2 t2,
        if clockTimestamp flag2 t2 ≤ s.lastTime then 1 else 0) ∧
    (getHardwareAddr none s).1 = Except.error Err.randSource ∧
    ((getHardwareAddr none s).2).hwSeeded = true ∧
    ((getHardwareAddr none s).2).hardwareAddr = s.hardwareAddr ∧
    ∀ hwf2, getHardwareAddr hwf2 ((getHardwareAddr none s).2) =
      (Except.ok s.hardwareAddr, (getHardwareAddr none s).2) := by
  by_cases hle : clockTimestamp flag2 t2 ≤ s.lastTime <;>
    simp_all [getClockSequence, getHardwareAddr, readFull, clockTimestamp, hle]

/-- Witness for C10 at the concrete fresh generator `g10`, whose random source
always fails. -/
theorem C10_failed_init_not_retried_witness :
    g10.clockSequence = 0 ∧ g10.clockSeqSeeded = false ∧ g10.hwSeeded = false ∧
    g10.rand g10.randPos = none ∧
    ((getClockSequence true ⟨0⟩ g10).1 = Except.error Err.randSource ∧
      ((getClockSequence true ⟨0⟩ g10).2).clockSeqSeeded = true ∧
      ((getClockSequence true ⟨0⟩ g10).2).clockSequence = 0 ∧
      ((getClockSequence true ⟨0⟩ g10).2).lastTime = g10.lastTime ∧
      (getClockSequence false ⟨0⟩ ((getClockSequence true ⟨0⟩ g10).2)).1 =
        Except.ok (clockTimestamp false ⟨0⟩,
          if clockTimestamp false ⟨0⟩ ≤ g10.lastTime then 1 else 0) ∧
      (getHardwareAddr none g10).1 = Except.error Err.randSource ∧
      ((getHardwareAddr none g10).2).hwSeeded = true ∧
      ((getHardwareAddr none g10).2).hardwareAddr = g10.hardwareAddr ∧
      ∀ hwf2, getHardwareAddr hwf2 ((getHardwareAddr none g10).2) =
        (Except.ok g10.hardwareAddr, (getHardwareAddr none g10).2)) :=
  ⟨rfl, rfl, rfl, rfl, C10_failed_init_not_retried g10 true false ⟨0⟩ ⟨0⟩ rfl rfl rfl rfl⟩

/-! ## C6: version-6 byte layout -/

theorem len8_expand (l : List Nat) (h : l.length = 8) :
    l = [l.getD 0 0, l.getD 1 0, l.getD 2 0, l.getD 3 0, l.getD 4 0, l.getD 5 0,
         l.getD 6 0, l.getD 7 0] := by
  rcases l with - | ⟨a0, - | ⟨a1, - | ⟨a2, - | ⟨a3, - | ⟨a4, - | ⟨a5, - | ⟨a6, - |
    ⟨a7, - | ⟨a8, tl⟩⟩⟩⟩⟩⟩⟩⟩⟩ <;> simp_all

/-- C6: for every successful `NewV6AtTime` call with 60-bit 100ns-epoch
timestamp `ep`, bytes 0–3 hold bits 59–28 of `ep`, bytes 4–5 bits 27–12,
bytes 6–7 bits 11–0 with the version nibble 6 in the top 4 bits of byte 6, and
bytes 8–15 are the fresh random bytes with the variant pattern `10` in the top
2 bits of byte 8; the clock-sequence value is not placed anywhere: the output
is unchanged under any value of the stored `clockSequence`. -/
theorem C6_v6_layout (t : GoTime) (s : GenState) (rb : List Nat)
    (hseed : s.clockSeqSeeded = true)
    (ht : getEpoch t < 1152921504606846976)
    (hr : s.rand s.randPos = some rb) :
    (NewV6AtTime t s).1 = Except.ok
      [getEpoch t / 4503599627370496 % 256, getEpoch t / 17592186044416 % 256,
       getEpoch t / 68719476736 % 256, getEpoch t / 268435456 % 256,
       getEpoch t / 1048576 % 256, getEpoch t / 4096 % 256,
       getEpoch t / 256 % 16 + 96, getEpoch t % 256,
       (padTruncBytes 8 rb).getD 0 0 % 64 + 128, (padTruncBytes 8 rb).getD 1 0,
       (padTruncBytes 8 rb).getD 2 0, (padTruncBytes 8 rb).getD 3 0,
       (padTruncBytes 8 rb).getD 4 0, (padTruncBytes 8 rb).getD 5 0,
       (padTruncBytes 8 rb).getD 6 0, (padTruncBytes 8 rb).getD 7 0] ∧
    ∀ c : Nat, (NewV6AtTime t { s with clockSequence := c }).1 = (NewV6AtTime t s).1 := by
  constructor
  · rw [NewV6AtTime]
    simp only [getClockSequence, hseed, if_true, readFull, hr]
    rw [len8_expand (padTruncBytes 8 rb) (padTruncBytes_length 8 rb)]
    simp [putUint16, putUint32, setVersion, setVariantRFC9562, List.set, List.getD]
    refine ⟨?_, ?_, ?_, ?_, ?_, ?_, ?_, ?_⟩ <;> omega
  · intro c
    rw [NewV6AtTime, NewV6AtTime]
    simp [getClockSequence, hseed, readFull, hr]

/-- Witness for C6 at time 0 on the concrete seeded generator `g6`. -/
theorem C6_v6_layout_witness :
    g6.clockSeqSeeded = true ∧
    getEpoch ⟨0⟩ < 1152921504606846976 ∧
    g6.rand g6.randPos = some (List.replicate 8 0) ∧
    ((NewV6AtTime ⟨0⟩ g6).1 = Except.ok
      [getEpoch ⟨0⟩ / 4503599627370496 % 256, getEpoch ⟨0⟩ / 17592186044416 % 256,
       getEpoch ⟨0⟩ / 68719476736 % 256, getEpoch ⟨0⟩ / 268435456 % 256,
       getEpoch ⟨0⟩ / 1048576 % 256, getEpoch ⟨0⟩ / 4096 % 256,
       getEpoch ⟨0⟩ / 256 % 16 + 96, getEpoch ⟨0⟩ % 256,
       (padTruncBytes 8 (List.replicate 8 0)).getD 0 0 % 64 + 128,
       (padTruncBytes 8 (List.replicate 8 0)).getD 1 0,
       (padTruncBytes 8 (List.replicate 8 0)).getD 2 0,
       (padTruncBytes 8 (List.replicate 8 0)).getD 3 0,
       (padTruncBytes 8 (List.replicate 8 0)).getD 4 0,
       (padTruncBytes 8 (List.replicate 8 0)).getD 5 0,
       (padTruncBytes 8 (List.replicate 8 0)).getD 6 0,
       (padTruncBytes 8 (List.replicate 8 0)).getD 7 0] ∧
    ∀ c : Nat,
      (NewV6AtTime ⟨0⟩ { g6 with clockSequence := c }).1 = (NewV6AtTime ⟨0⟩ g6).1) :=
  ⟨rfl, by decide, rfl, C6_v6_layout ⟨0⟩ g6 (List.replicate 8 0) rfl (by decide) rfl⟩

/-! ## C1: batch ordering -/

theorem lexLtB_append_same (p x y : List Nat) :
    lexLtB (p ++ x) (p ++ y) = lexLtB x y := by
  induction p with
  | nil => rfl
  | cons a p ih => simp [lexLtB, ih]

theorem lexLtB_of_take : ∀ (k : Nat) (u v : List Nat),
    lexLtB (u.take k) (v.take k) = true → lexLtB u v = true := by
  intro k
  induction k with
  | zero =>
    intro u v h
    simp [lexLtB] at h
  | succ k ih =>
    intro u v h
    match u, v with
    | [], [] => simp [lexLtB] at h
    | [], b :: bs => rfl
    | a :: as, [] => simp [lexLtB] at h
    | a :: as, b :: bs =>
      simp only [List.take_succ_cons] at h
      simp only [lexLtB, Bool.or_eq_true, Bool.and_eq_true, decide_eq_true_eq,
        beq_iff_eq] at h ⊢
      rcases h with h | ⟨he, hr⟩
      · exact Or.inl h
      · exact Or.inr ⟨he, ih as bs hr⟩

theorem lexLtB_false_of_take : ∀ (k : Nat) (u v : List Nat),
    lexLtB (v.take k) (u.take k) = true → lexLtB u v = false := by
  intro k
  induction k with
  | zero =>
    intro u v h
    simp [lexLtB] at h
  | succ k ih =>
    intro u v h
    match u, v with
    | [], [] => simp [lexLtB] at h
    | [], b :: bs => simp [lexLtB] at h
    | a :: as, [] => rfl
    | a :: as, b :: bs =>
      simp only [List.take_succ_cons] at h
      simp only [lexLtB, Bool.or_eq_true, Bool.and_eq_true, decide_eq_true_eq,
        beq_iff_eq] at h
      rcases h with h | ⟨he, hr⟩
      · have h1 : ¬ (a < b) := by omega
        have h2 : ¬ (a = b) := by omega
        simp [lexLtB, h1, h2]
      · subst he
        have h1 : ¬ (b < b) := by omega
        simp [lexLtB, h1, ih as bs hr]

theorem ctrBytes_lexLt (i j : Nat) (hij : i < j) (hj : j < 4096) :
    lexLtB (ctrBytes i) (ctrBytes j) = true := by
  simp only [ctrBytes, lexLtB, Bool.or_eq_true, Bool.and_eq_true,
    decide_eq_true_eq, beq_iff_eq]
  omega

/-- One step of the batch loop: `newMonotonicV7` succeeds whenever the random
draw succeeds, its first 8 bytes are the millisecond timestamp and the packed
counter, and the state advances as the source prescribes. -/
theorem newMonotonicV7_step (s : MonotonicGenState)
    (hrand : (s.gen.rand s.gen.randPos).isSome = true) :
    ∃ u s2, newMonotonicV7 s = (Except.ok u, s2) ∧
      u.take 8 = msBytes (unixMilli (s.gen.epoch s.gen.epochPos)) ++
        ctrBytes (if unixMilli (s.gen.epoch s.gen.epochPos) ≤ s.gen.lastTime
                  then (s.monotonicCounter + 1) % 65536 else 0) ∧
      u.length = 16 ∧
      s2.monotonicCounter =
        (if unixMilli (s.gen.epoch s.gen.epochPos) ≤ s.gen.lastTime
         then (s.monotonicCounter + 1) % 65536 else 0) ∧
      s2.gen.lastTime = unixMilli (s.gen.epoch s.gen.epochPos) ∧
      s2.gen.epochPos = s.gen.epochPos + 1 ∧
      s2.gen.randPos = s.gen.randPos + 1 ∧
      s2.gen.rand = s.gen.rand ∧ s2.gen.epoch = s.gen.epoch ∧
      s2.gen.clockSeqSeeded = s.gen.clockSeqSeeded ∧
      s2.gen.hwSeeded = s.gen.hwSeeded ∧
      s2.gen.clockSequence = s.gen.clockSequence ∧
      s2.gen.hardwareAddr = s.gen.hardwareAddr := by
  obtain ⟨bs, hbs⟩ : ∃ bs, s.gen.rand s.gen.randPos = some bs :=
    Option.isSome_iff_exists.mp hrand
  by_cases hle : unixMilli (s.gen.epoch s.gen.epochPos) ≤ s.gen.lastTime <;>
    simp only [newMonotonicV7, getMonotonicClockSequence, readFull, hbs, hle,
      if_true, if_false, ite_true, ite_false] <;>
    refine ⟨_, _, rfl, ?_⟩ <;>
    simp [putUint16, setVersion, setVariantRFC9562, msBytes, ctrBytes,
      padTruncBytes_length, List.set, List.getD, hle] <;>
    omega

/-- Characterization of the batch loop from a state whose stored timestamp
already equals the (constant) observed millisecond `m`: the `k` produced
identifiers carry the strictly increasing counters `c+1, …, c+k`, and the
state advances accordingly. -/
theorem generateBatchLoop_spec : ∀ (k : Nat) (s : MonotonicGenState) (c m : Nat),
    s.gen.lastTime = m → s.monotonicCounter = c → c + k < 65536 →
    (∀ i, i < k → unixMilli (s.gen.epoch (s.gen.epochPos + i)) = m) →
    (∀ i, i < k → (s.gen.rand (s.gen.randPos + i)).isSome = true) →
    ∃ us s2, generateBatchLoop k s = (Except.ok us, s2) ∧
      us.length = k ∧
      (∀ i, i < k → (us.getD i []).take 8 = msBytes m ++ ctrBytes (c + 1 + i) ∧
        (us.getD i []).length = 16) ∧
      s2.monotonicCounter = c + k ∧
      s2.gen.lastTime = m ∧
      s2.gen.epochPos = s.gen.epochPos + k ∧
      s2.gen.randPos = s.gen.randPos + k ∧
      s2.gen.rand = s.gen.rand ∧ s2.gen.epoch = s.gen.epoch ∧
      s2.gen.clockSeqSeeded = s.gen.clockSeqSeeded ∧
      s2.gen.hwSeeded = s.gen.hwSeeded ∧
      s2.gen.clockSequence = s.gen.clockSequence ∧
      s2.gen.hardwareAddr = s.gen.hardwareAddr := by
  intro k
  induction k with
  | zero =>
    intro s c m hlast hctr hbound hm hr
    refine ⟨[], s, rfl, rfl, ?_, ?_, hlast, ?_, ?_, rfl, rfl, rfl, rfl, rfl, rfl⟩
    · intro i hi
      exact absurd hi (Nat.not_lt_zero i)
    · omega
    · omega
    · omega
  | succ k ih =>
    intro s c m hlast hctr hbound hm hr
    have hr0 : (s.gen.rand s.gen.randPos).isSome = true := by
      have h := hr 0 (by omega)
      simpa using h
    obtain ⟨u, s2, hstep, hu8, hulen, hctr2, hlast2, hep2, hrp2, hrand2, hepoch2,
      hseed2, hhw2, hcs2, hha2⟩ := newMonotonicV7_step s hr0
    have hm0 : unixMilli (s.gen.epoch s.gen.epochPos) = m := by
      have h := hm 0 (by omega)
      simpa using h
    have hcond : (if unixMilli (s.gen.epoch s.gen.epochPos) ≤ s.gen.lastTime
        then (s.monotonicCounter + 1) % 65536 else 0) = c + 1 := by
      rw [hm0, hlast, hctr, if_pos (le_refl m)]
      omega
    rw [hcond] at hu8 hctr2
    have hm2 : ∀ i, i < k → unixMilli (s2.gen.epoch (s2.gen.epochPos + i)) = m := by
      intro i hi
      rw [hepoch2, hep2, show s.gen.epochPos + 1 + i = s.gen.epochPos + (i + 1) by omega]
      exact hm (i + 1) (by omega)
    have hr2 : ∀ i, i < k → (s2.gen.rand (s2.gen.randPos + i)).isSome = true := by
      intro i hi
      rw [hrand2, hrp2, show s.gen.randPos + 1 + i = s.gen.randPos + (i + 1) by omega]
      exact hr (i + 1) (by omega)
    obtain ⟨us, s3, hloop, hlen, hpre, hctr3, hlast3, hep3, hrp3, hrand3, hepoch3,
      hseed3, hhw3, hcs3, hha3⟩ :=
      ih s2 (c + 1) m (by rw [hlast2, hm0]) hctr2 (by omega) hm2 hr2
    refine ⟨u :: us, s3, ?_, ?_, ?_, ?_, hlast3, ?_, ?_, ?_, ?_, ?_, ?_, ?_, ?_⟩
    · simp [generateBatchLoop, hstep, hloop]
    · simp [hlen]
    · intro i hi
      cases i with
      | zero =>
        constructor
        · rw [hm0] at hu8
          simpa using hu8
        · simpa using hulen
      | succ i =>
        have h := hpre i (by omega)
        rw [show c + 1 + (i + 1) = c + 1 + 1 + i by omega]
        simpa using h
    · omega
    · omega
    · omega
    · rw [hrand3, hrand2]
    · rw [hepoch3, hepoch2]
    · rw [hseed3, hseed2]
    · rw [hhw3, hhw2]
    · rw [hcs3, hcs2]
    · rw [hha3, hha2]

/-- A full `GenerateBatchV7` run whose every call observes the same
millisecond `m`, starting from a state whose stored timestamp is strictly
behind `m` (so the first call resets the counter): the `n` identifiers carry
counters `0, …, n-1`. -/
theorem generateBatchV7_run (s : MonotonicGenState) (n m : Nat)
    (hn : 0 < n) (hbound : n ≤ 65536)
    (hreset : s.gen.lastTime < m)
    (hm : ∀ i, i < n → unixMilli (s.gen.epoch (s.gen.epochPos + i)) = m)
    (hr : ∀ i, i < n → (s.gen.rand (s.gen.randPos + i)).isSome = true) :
    ∃ us s2, GenerateBatchV7 (n : Int) s = (Except.ok us, s2) ∧
      us.length = n ∧
      (∀ i, i < n → (us.getD i []).take 8 = msBytes m ++ ctrBytes i ∧
        (us.getD i []).length = 16) ∧
      s2.monotonicCounter = n - 1 ∧
      s2.gen.lastTime = m ∧
      s2.gen.epochPos = s.gen.epochPos + n ∧
      s2.gen.randPos = s.gen.randPos + n ∧
      s2.gen.rand = s.gen.rand ∧ s2.gen.epoch = s.gen.epoch := by
  have hpos : ¬ ((n : Int) ≤ 0) := by omega
  obtain ⟨k, rfl⟩ : ∃ k, n = k + 1 := ⟨n - 1, by omega⟩
  have hr0 : (s.gen.rand s.gen.randPos).isSome = true := by
    have h := hr 0 (by omega)
    simpa using h
  obtain ⟨u, s2, hstep, hu8, hulen, hctr2, hlast2, hep2, hrp2, hrand2, hepoch2,
    hseed2, hhw2, hcs2, hha2⟩ := newMonotonicV7_step s hr0
  have hm0 : unixMilli (s.gen.epoch s.gen.epochPos) = m := by
    have h := hm 0 (by omega)
    simpa using h
  have hcond : (if unixMilli (s.gen.epoch s.gen.epochPos) ≤ s.gen.lastTime
      then (s.monotonicCounter + 1) % 65536 else 0) = 0 := by
    rw [hm0, if_neg (by omega)]
  rw [hcond] at hu8 hctr2
  have hm2 : ∀ i, i < k → unixMilli (s2.gen.epoch (s2.gen.epochPos + i)) = m := by
    intro i hi
    rw [hepoch2, hep2, show s.gen.epochPos + 1 + i = s.gen.epochPos + (i + 1) by omega]
    exact hm (i + 1) (by omega)
  have hr2 : ∀ i, i < k → (s2.gen.rand (s2.gen.randPos + i)).isSome = true := by
    intro i hi
    rw [hrand2, hrp2, show s.gen.randPos + 1 + i = s.gen.randPos + (i + 1) by omega]
    exact hr (i + 1) (by omega)
  obtain ⟨us, s3, hloop, hlen, hpre, hctr3, hlast3, hep3, hrp3, hrand3, hepoch3,
    hseed3, hhw3, hcs3, hha3⟩ :=
    generateBatchLoop_spec k s2 0 m (by rw [hlast2, hm0]) hctr2 (by omega) hm2 hr2
  refine ⟨u :: us, s3, ?_, ?_, ?_, ?_, hlast3, ?_, ?_, ?_, ?_⟩
  · simp only [GenerateBatchV7, if_neg hpos, Int.toNat_natCast, generateBatchLoop,
      hstep, hloop]
  · simp [hlen]
  · intro i hi
    cases i with
    | zero =>
      constructor
      · rw [hm0] at hu8
        simpa using hu8
      · simpa using hulen
    | succ i =>
      have h := hpre i (by omega)
      rw [show (0 : Nat) + 1 + i = i + 1 by omega] at h
      simpa using h
  · omega
  · omega
  · omega
  · rw [hrand3, hrand2]
  · rw [hepoch3, hepoch2]

/-- The stubbed clock of `mg1` always reports millisecond 1. -/
theorem mg1_ms (x : Nat) : unixMilli (mg1.gen.epoch x) = 1 := by
  simp [mg1, newMonotonicGenState, newGenState, unixMilli]

/-- The stubbed random source of `mg1` always succeeds. -/
theorem mg1_rand (x : Nat) : (mg1.gen.rand x).isSome = true := rfl

/-- C1 (amended): for every batch size `0 < n ≤ 4096`, when every call inside
`GenerateBatchV7(n)` observes the same millisecond `m`, every random draw
succeeds, and the batch starts with the stored timestamp strictly behind `m`
(as on a fresh generator), the returned identifiers are strictly increasing in
byte-lexicographic order.  The bound `n ≤ 4096` is necessary: the version
nibble overwrites the top 4 bits of the 16-bit counter, so only 12 counter
bits order the batch (see the counterexample at 4097 same-millisecond
identifiers). -/
theorem C1_batch_ordering (s : MonotonicGenState) (n m : Nat)
    (hn : 0 < n) (hn4096 : n ≤ 4096)
    (hreset : s.gen.lastTime < m)
    (hm : ∀ i, i < n → unixMilli (s.gen.epoch (s.gen.epochPos + i)) = m)
    (hr : ∀ i, i < n → (s.gen.rand (s.gen.randPos + i)).isSome = true) :
    ∃ us, (GenerateBatchV7 (n : Int) s).1 = Except.ok us ∧ us.length = n ∧
      ∀ i j, i < j → j < n → lexLtB (us.getD i []) (us.getD j []) = true := by
  obtain ⟨us, s2, hrun, hlen, hpre, -, -, -, -, -, -⟩ :=
    generateBatchV7_run s n m hn (by omega) hreset hm hr
  refine ⟨us, by rw [hrun], hlen, ?_⟩
  intro i j hij hj
  obtain ⟨hi8, -⟩ := hpre i (by omega)
  obtain ⟨hj8, -⟩ := hpre j hj
  apply lexLtB_of_take 8
  rw [hi8, hj8, lexLtB_append_same]
  exact ctrBytes_lexLt i j hij (by omega)

/-- Witness for C1's amended theorem: the spec's own scenario, a batch of 5 on
the fresh stubbed generator `mg1` whose clock always reports millisecond 1. -/
theorem C1_batch_ordering_witness :
    0 < 5 ∧ 5 ≤ 4096 ∧ mg1.gen.lastTime < 1 ∧
    (∀ i, i < 5 → unixMilli (mg1.gen.epoch (mg1.gen.epochPos + i)) = 1) ∧
    (∀ i, i < 5 → (mg1.gen.rand (mg1.gen.randPos + i)).isSome = true) ∧
    (∃ us, (GenerateBatchV7 ((5 : Nat) : Int) mg1).1 = Except.ok us ∧
      us.length = 5 ∧
      ∀ i j, i < j → j < 5 → lexLtB (us.getD i []) (us.getD j []) = true) :=
  ⟨by decide, by decide, by decide, fun i _ => mg1_ms (mg1.gen.epochPos + i),
   fun _ _ => mg1_rand _,
   C1_batch_ordering mg1 5 1 (by decide) (by decide) (by decide)
     (fun i _ => mg1_ms (mg1.gen.epochPos + i)) (fun _ _ => mg1_rand _)⟩

/-- C1 counterexample: the claim fails for batches larger than 4096.  On the
fresh generator `mg1` (constant millisecond 1, always-succeeding random
source), after a first batch of 4095 same-millisecond identifiers, the next
`GenerateBatchV7 2` call — all premises of the claim hold: positive size,
identical millisecond, all draws succeed — returns two identifiers whose first
is NOT lexicographically below the second (counters 4095 = `0x0FFF` and
4096 = `0x1000` collapse to rand_a fields `0x7FFF` and `0x7000`). -/
theorem C1_counterexample :
    ∃ u1 u2,
      (GenerateBatchV7 ((2 : Nat) : Int)
        ((GenerateBatchV7 ((4095 : Nat) : Int) mg1).2)).1 = Except.ok [u1, u2] ∧
      lexLtB u1 u2 = false := by
  obtain ⟨us, s2, hrun, hlen, hpre, hctr, hlast, hep, hrp, hrand, hepoch⟩ :=
    generateBatchV7_run mg1 4095 1 (by omega) (by omega) (by decide)
      (fun i _ => mg1_ms (mg1.gen.epochPos + i)) (fun _ _ => mg1_rand _)
  rw [hrun]
  have hrA : (s2.gen.rand s2.gen.randPos).isSome = true := by
    rw [hrand]
    exact mg1_rand _
  obtain ⟨uA, sA, hstepA, hA8, hAlen, hActr, hAlast, hAep, hArp, hArand, hAepoch,
    -, -, -, -⟩ := newMonotonicV7_step s2 hrA
  have hmsA : unixMilli (s2.gen.epoch s2.gen.epochPos) = 1 := by
    rw [hepoch]
    exact mg1_ms _
  have hcondA : (if unixMilli (s2.gen.epoch s2.gen.epochPos) ≤ s2.gen.lastTime
      then (s2.monotonicCounter + 1) % 65536 else 0) = 4095 := by
    rw [hmsA, hlast, hctr, if_pos (by omega)]
  rw [hcondA] at hA8 hActr
  have hrB : (sA.gen.rand sA.gen.randPos).isSome = true := by
    rw [hArand, hrand]
    exact mg1_rand _
  obtain ⟨uB, sB, hstepB, hB8, hBlen, hBctr, hBlast, hBep, hBrp, hBrand, hBepoch,
    -, -, -, -⟩ := newMonotonicV7_step sA hrB
  have hmsB : unixMilli (sA.gen.epoch sA.gen.epochPos) = 1 := by
    rw [hAepoch, hepoch]
    exact mg1_ms _
  have hcondB : (if unixMilli (sA.gen.epoch sA.gen.epochPos) ≤ sA.gen.lastTime
      then (sA.monotonicCounter + 1) % 65536 else 0) = 4096 := by
    rw [hmsB, hAlast, hmsA, hActr, if_pos (by omega)]
  rw [hcondB] at hB8
  refine ⟨uA, uB, ?_, ?_⟩
  · simp only [GenerateBatchV7, if_neg (by omega : ¬ (((2 : Nat) : Int) ≤ 0)),
      Int.toNat_natCast, generateBatchLoop, hstepA, hstepB]
  · apply lexLtB_false_of_take 8
    rw [hmsA] at hA8
    rw [hmsB] at hB8
    rw [hA8, hB8, lexLtB_append_same]
    decide

/-! ## C8: determinism and distinctness of the hash-based versions -/

theorem wordLE_lt (w : Nat) : ∀ b ∈ wordLE w, b < 256 := by
  intro b hb
  simp [wordLE] at hb
  rcases hb with h | h | h | h <;> omega

theorem wordBE_lt (w : Nat) : ∀ b ∈ wordBE w, b < 256 := by
  intro b hb
  simp [wordBE] at hb
  rcases hb with h | h | h | h <;> omega

theorem md5Bytes_length (msg : List Nat) : (md5Bytes msg).length = 16 := by
  simp [md5Bytes, wordLE]

theorem md5Bytes_lt (msg : List Nat) : ∀ b ∈ md5Bytes msg, b < 256 := by
  intro b hb
  simp only [md5Bytes, List.mem_append] at hb
  rcases hb with ((h | h) | h) | h <;> exact wordLE_lt _ b h

theorem sha1Bytes_length (msg : List Nat) : (sha1Bytes msg).length = 20 := by
  simp [sha1Bytes, wordBE]

theorem sha1Bytes_lt (msg : List Nat) : ∀ b ∈ sha1Bytes msg, b < 256 := by
  intro b hb
  simp only [sha1Bytes, List.mem_append] at hb
  rcases hb with (((h | h) | h) | h) | h <;> exact wordBE_lt _ b h

theorem setVV_wf (u : UUID) (v : Nat) (hlen : u.length = 16)
    (hlt : ∀ b ∈ u, b < 256) :
    (setVariantRFC9562 (setVersion v u)).length = 16 ∧
    ∀ b ∈ setVariantRFC9562 (setVersion v u), b < 256 := by
  constructor
  · simp [setVersion, setVariantRFC9562, hlen]
  · intro b hb
    rcases List.mem_or_eq_of_mem_set hb with hb | rfl
    · rcases List.mem_or_eq_of_mem_set hb with hb | rfl
      · exact hlt b hb
      · omega
    · omega

theorem newV3_wf (g : GenState) (ns : UUID) (name : List Nat) :
    (NewV3 g ns name).length = 16 ∧ ∀ b ∈ NewV3 g ns name, b < 256 := by
  have hdig := md5Bytes_length (ns ++ name)
  have hlt := md5Bytes_lt (ns ++ name)
  refine setVV_wf _ 3 ?_ ?_
  · simp [newFromHash, hdig]
  · intro b hb
    simp only [newFromHash, hdig, List.mem_append] at hb
    rcases hb with hb | hb
    · exact hlt b (List.mem_of_mem_take hb)
    · simp [List.eq_of_mem_replicate hb]

theorem newV5_wf (g : GenState) (ns : UUID) (name : List Nat) :
    (NewV5 g ns name).length = 16 ∧ ∀ b ∈ NewV5 g ns name, b < 256 := by
  have hdig := sha1Bytes_length (ns ++ name)
  have hlt := sha1Bytes_lt (ns ++ name)
  refine setVV_wf _ 5 ?_ ?_
  · simp [newFromHash, hdig]
  · intro b hb
    simp only [newFromHash, hdig, List.mem_append] at hb
    rcases hb with hb | hb
    · exact hlt b (List.mem_of_mem_take hb)
    · simp [List.eq_of_mem_replicate hb]

theorem uuid_eq_of_encUuid_eq (l1 l2 : List Nat) (h1 : l1.length = 16)
    (h2 : l2.length = 16) (b1 : ∀ b ∈ l1, b < 256) (b2 : ∀ b ∈ l2, b < 256)
    (he : encUuid l1 = encUuid l2) : l1 = l2 := by
  apply List.ext_getElem (by omega)
  intro n hn1 hn2
  have hn16 : n < 16 := by omega
  have hval : l1.getD n 0 % 256 = l2.getD n 0 % 256 :=
    congrArg Fin.val (congrFun he ⟨n, hn16⟩)
  rw [List.getD_eq_getElem l1 0 hn1, List.getD_eq_getElem l2 0 hn2] at hval
  have o1 : l1[n] < 256 := b1 _ (List.getElem_mem hn1)
  have o2 : l2[n] < 256 := b2 _ (List.getElem_mem hn2)
  omega

/-- C8 counterexample: "two distinct names yield distinct results for the same
namespace" is false for both hash-based versions — the identifier space is
finite (16 bytes) while names range over all byte sequences, so `NewV3` (and
`NewV5`) must collide on some pair of distinct names for the zero namespace. -/
theorem C8_counterexample :
    (∃ name1 name2 : List Nat, name1 ≠ name2 ∧
      NewV3 g8 nsZero name1 = NewV3 g8 nsZero name2) ∧
    (∃ name1 name2 : List Nat, name1 ≠ name2 ∧
      NewV5 g8 nsZero name1 = NewV5 g8 nsZero name2) := by
  constructor
  · obtain ⟨n1, n2, hne, he⟩ := Finite.exists_ne_map_eq_of_infinite
      (fun name : List Nat => encUuid (NewV3 g8 nsZero name))
    exact ⟨n1, n2, hne,
      uuid_eq_of_encUuid_eq _ _ (newV3_wf g8 nsZero n1).1 (newV3_wf g8 nsZero n2).1
        (newV3_wf g8 nsZero n1).2 (newV3_wf g8 nsZero n2).2 he⟩
  · obtain ⟨n1, n2, hne, he⟩ := Finite.exists_ne_map_eq_of_infinite
      (fun name : List Nat => encUuid (NewV5 g8 nsZero name))
    exact ⟨n1, n2, hne,
      uuid_eq_of_encUuid_eq _ _ (newV5_wf g8 nsZero n1).1 (newV5_wf g8 nsZero n2).1
        (newV5_wf g8 nsZero n1).2 (newV5_wf g8 nsZero n2).2 he⟩

/-- C8 (amended): `NewV3` and `NewV5` are pure functions of the namespace and
name — the generator state (hence the invocation) is irrelevant — and the
spec's concrete distinctness scenario holds: for the zero namespace the names
"x" (`[120]`) and "y" (`[121]`) hash to distinct identifiers under both MD5
(v3) and SHA-1 (v5).  (Distinctness for ALL pairs of distinct names is
impossible: see the counterexample.) -/
theorem C8_hash_determinism :
    (∀ (s1 s2 : GenState) (ns : UUID) (name : List Nat),
      NewV3 s1 ns name = NewV3 s2 ns name) ∧
    (∀ (s1 s2 : GenState) (ns : UUID) (name : List Nat),
      NewV5 s1 ns name = NewV5 s2 ns name) ∧
    NewV3 g8 nsZero [120] ≠ NewV3 g8 nsZero [121] ∧
    NewV5 g8 nsZero [120] ≠ NewV5 g8 nsZero [121] :=
  ⟨fun _ _ _ _ => rfl, fun _ _ _ _ => rfl, by decide, by decide⟩
